import Mathlib

/-!
Verification development for the guided content playback engine of the
jooy-app2 repository.  The definitions below are a shallow embedding of the
TypeScript sources:

* `src/src/types/worksheet.ts` and `src/unnamed/part_002` - the data model;
* `src/src/components/WorksheetViewer.tsx` - the playback state machine,
  the audio availability probe, the audio path builder and the audio/video
  synchroniser;
* `src/src/components/AutoModeViewer.tsx` - the standalone auto-mode viewer;
* `src/src/components/AutoModeContentDisplay.tsx` - the alternative
  auto-mode display and its audio path builder;
* `src/unnamed/part_002` (WorksheetPage) - session persistence.

React `useState` cells become fields of explicit state structures; event
handlers become pure functions from a state (plus their arguments) to a new
state together with a list of emitted media commands; `sessionStorage` for
one page key becomes an optional record value.
-/

namespace Jooy

/-! ## Data model -/

/-- Guidance item of auto mode, `GuidanceItem` in `src/unnamed/part_002`
(title plus a single raw description string). -/
structure GuidanceItem where
  title : String
  description : String
deriving DecidableEq

/-- Spatial region, `RegionData` in `src/src/types/worksheet.ts`; only the
fields the playback engine consults are kept (`document_id`, `user_id`,
`type`, `created_at` are never read by the viewer).  `description` holds the
raw description lines before normalisation. -/
structure RegionData where
  id : String
  page : Nat
  name : String
  description : List String
deriving DecidableEq

/-- Page record of auto-mode metadata, `AutoModePageData`. -/
structure AutoModePageData where
  page_number : Nat
  page_description : String
  guidance : List GuidanceItem
deriving DecidableEq

/-- The two metadata modes (`worksheetMeta.mode`). -/
inductive Mode where
  | regions
  | auto
deriving DecidableEq

/-- The metadata payload (`worksheetMeta.data`), a union of the two shapes. -/
inductive MetaData where
  | regions (rs : List RegionData)
  | auto (pages : List AutoModePageData)
deriving DecidableEq

/-- The props of `WorksheetViewer` that stay fixed during one mount:
worksheet identifier, page number, and the metadata mode. -/
structure Config where
  worksheetId : String
  pageIndex : Nat
  mode : Mode
deriving DecidableEq

/-- A normalised content unit of the current page: either a processed region
(description already split into paragraphs, as produced by the
`currentPageContent` memo) or a guidance entry tagged with its synthetic id
`guidance_<index>` and its index. -/
inductive ContentUnit where
  | region (r : RegionData)
  | guidance (g : GuidanceItem) (id : String) (index : Nat)
deriving DecidableEq

/-- The id used to key session progress for a unit. -/
def ContentUnit.cid : ContentUnit → String
  | .region r => r.id
  | .guidance _ id _ => id

/-- Embeds `StoredContentData` of `src/unnamed/part_002`. -/
structure StoredContentData where
  currentStepIndex : Nat
deriving DecidableEq

/-- Embeds `SessionPageData` of `src/unnamed/part_002`: the JSON record stored under
one `worksheet_page_state_<id>_<n>` key.  The `content` map is an
association list from unit id to its stored progress. -/
structure SessionPageData where
  lastActiveContentId : Option String
  content : List (String × StoredContentData)
deriving DecidableEq

/-! ## JavaScript string primitives

The handlers use JS `String.prototype.trim` and `String.prototype.split`.
They are embedded here as structural recursion over the character list (the
sources only ever meet ASCII whitespace). -/

/-- Whitespace as JS `trim` strips it (ASCII fragment). -/
def isJsWhitespace (c : Char) : Bool :=
  c = ' ' || c = '\t' || c = '\n' || c = '\r'

/-- JS `s.trim()`: strip leading and trailing whitespace. -/
def jsTrim (s : String) : String :=
  ⟨(((s.data.dropWhile isJsWhitespace).reverse.dropWhile isJsWhitespace).reverse)⟩

/-- Accumulating worker for `jsSplitChar`. -/
def jsSplitCharAux (sep : Char) : List Char → List Char → List String
  | [], acc => [⟨acc.reverse⟩]
  | c :: rest, acc =>
      if c = sep then ⟨acc.reverse⟩ :: jsSplitCharAux sep rest []
      else jsSplitCharAux sep rest (c :: acc)

/-- JS `s.split(sep)` for a one-character separator: splits into the (always
nonempty) list of fields, keeping empty fields. -/
def jsSplitChar (sep : Char) (s : String) : List String :=
  jsSplitCharAux sep s.data []

/-- JS `parseInt` restricted to how the page uses it: parse leading decimal
digits, `none` for `NaN`. -/
def jsParseInt (s : String) : Option Nat :=
  let digits := s.data.takeWhile Char.isDigit
  if digits.isEmpty then none
  else some (digits.foldl (fun n c => n * 10 + (c.toNat - 48)) 0)

/-! ## Content normalisation (WorksheetViewer.tsx lines 83-176) -/

/-- Split one raw string on newlines and drop blank lines
(`item.split('\n').filter(paragraph => paragraph.trim() !== '')`). -/
def splitNonBlank (s : String) : List String :=
  (jsSplitChar '\n' s).filter (fun paragraph => jsTrim paragraph ≠ "")

/-- Processing of a region's raw description array
(WorksheetViewer.tsx lines 93-99): flatten, splitting each element on
newlines and discarding blank results. -/
def processRegionDescription (raw : List String) : List String :=
  (raw.map splitNonBlank).flatten

/-- Embeds `isNonClickableGuidance` (WorksheetViewer.tsx lines 149-153): true when
the description is empty, whitespace only, or exactly a `<br>` marker after
trimming. -/
def isNonClickableGuidance (g : GuidanceItem) : Bool :=
  decide (jsTrim g.description = "" ∨ jsTrim g.description = "<br>")

/-- Embeds `processGuidanceDescription` (WorksheetViewer.tsx lines 168-176). -/
def processGuidanceDescription (description : String) : List String :=
  if jsTrim description = "" ∨ jsTrim description = "<br>" then []
  else splitNonBlank description

/-- The description used by the click handlers (WorksheetViewer.tsx
lines 581-587, 648-654, 743-753): the processed region paragraphs in regions
mode, the processed guidance description in auto mode, `[]` on a mode/shape
mismatch (unreachable in well-formed renders). -/
def contentDescription : Mode → ContentUnit → List String
  | .regions, .region r => r.description
  | .auto, .guidance g _ _ => processGuidanceDescription g.description
  | _, _ => []

/-- Regions-mode branch of the `currentPageContent` memo (lines 86-111):
filter to the current page and process each description. -/
def normalizeRegions (regions : List RegionData) (pageIndex : Nat) : List ContentUnit :=
  ((regions.filter (fun r => r.page = pageIndex)).map
    (fun r => ContentUnit.region { r with description := processRegionDescription r.description }))

/-- Auto-mode branch of the `currentPageContent` memo (lines 112-121):
locate the page record and tag each guidance entry with `guidance_<index>`. -/
def normalizeAuto (pages : List AutoModePageData) (pageIndex : Nat) : List ContentUnit :=
  match pages.find? (fun page => page.page_number = pageIndex) with
  | some pageData =>
      pageData.guidance.enum.map
        (fun gi => ContentUnit.guidance gi.2 ("guidance_" ++ toString gi.1) gi.1)
  | none => []

/-! ## Audio asset paths -/

/-- Embeds `playAudioSegment` path construction (WorksheetViewer.tsx line 564):
`/audio/<worksheetId>/<regionName>_<stepIndex+1>.mp3`. -/
def playAudioSegmentPath (worksheetId regionName : String) (stepIndex : Nat) : String :=
  "/audio/" ++ worksheetId ++ "/" ++ regionName ++ "_" ++ toString (stepIndex + 1) ++ ".mp3"

/-- The name string WorksheetViewer passes to `playAudioSegment` in auto mode
(lines 318, 417, 623, 678): the template `<pageIndex>_<index>` where `index`
is the zero-based guidance index. -/
def wvAutoAudioName (pageIndex index : Nat) : String :=
  toString pageIndex ++ "_" ++ toString index

/-- Embeds `playAudioSegment` of AutoModeContentDisplay.tsx (line 198):
`/audio/<worksheetId>/<pageNumber>_<guidanceIndex+1>_<stepIndex+1>.mp3`. -/
def amdPlayAudioSegmentPath (worksheetId : String) (pageNumber guidanceIndex stepIndex : Nat) :
    String :=
  "/audio/" ++ worksheetId ++ "/" ++ toString pageNumber ++ "_" ++
    toString (guidanceIndex + 1) ++ "_" ++ toString (stepIndex + 1) ++ ".mp3"

/-- Audio segment name chosen by the mode branches of the click handlers
(WorksheetViewer.tsx lines 620-624): the region name in regions mode, the
`<pageIndex>_<index>` template in auto mode, nothing on a mismatch. -/
def audioSegmentName (cfg : Config) : ContentUnit → Option String
  | .region r => if cfg.mode = Mode.regions then some r.name else none
  | .guidance _ _ index =>
      if cfg.mode = Mode.auto then some (wvAutoAudioName cfg.pageIndex index) else none

/-! ## Specification-worded path builders (section 6 of the spec), kept
separate so the code-derived builders can be compared against them. -/

/-- Modelled from the spec: regions-mode path convention
`/audio/<worksheetId>/<unitName>_<stepNumber>.mp3` with a 1-indexed step. -/
def specRegionsAudioPath (worksheetId unitName : String) (stepIndex : Nat) : String :=
  "/audio/" ++ worksheetId ++ "/" ++ unitName ++ "_" ++ toString (stepIndex + 1) ++ ".mp3"

/-- Modelled from the spec: auto-mode path convention
`/audio/<worksheetId>/<page>_<guidanceIndex>_<stepNumber>.mp3` with 1-indexed
guidance and step. -/
def specAutoAudioPath (worksheetId : String) (page guidanceIndex stepIndex : Nat) : String :=
  "/audio/" ++ worksheetId ++ "/" ++ toString page ++ "_" ++
    toString (guidanceIndex + 1) ++ "_" ++ toString (stepIndex + 1) ++ ".mp3"

/-- Modelled from the spec: a line-break placeholder marker. -/
def isPlaceholderMarker (p : String) : Bool :=
  decide (jsTrim p = "<br>" ∨ jsTrim p = "<br/>")

/-- Modelled from the spec: non-clickability as the spec words it - the
derived paragraph sequence is empty or consists solely of placeholders. -/
def specNonClickable (paragraphs : List String) : Bool :=
  paragraphs.isEmpty || paragraphs.all isPlaceholderMarker

example : processGuidanceDescription "<br/>" = ["<br/>"] := by decide
example : specNonClickable (processGuidanceDescription "<br/>") = true := by decide
example : playAudioSegmentPath "w1" (wvAutoAudioName 2 0) 0 = "/audio/w1/2_0_1.mp3" := by decide

/-! ## Playback state (WorksheetViewer.tsx useState cells, lines 48-70) -/

/-- The `useState` cells of `WorksheetViewer` that the playback engine
mutates.  `activeContent` stores the active unit, `displayedMessages` the
revealed paragraphs. -/
structure ViewerState where
  activeContent : Option ContentUnit
  currentStepIndex : Nat
  isTextMode : Bool
  isGuidanceTextMode : Bool
  displayedMessages : List String
  isAudioPlaying : Bool
  audioAvailable : Bool
  audioCheckPerformed : Bool
  hasRestoredInitialState : Bool
deriving DecidableEq

/-- Imperative commands the handlers issue against the audio and video
elements. -/
inductive MediaCmd where
  | playVideoFromStart
  | playAudio (path : String)
  | pauseAudio
  | rewindAudio
  | pauseVideo
  | rewindVideo
deriving DecidableEq

/-- A command that starts media (as opposed to stopping or rewinding it). -/
def MediaCmd.isStart : MediaCmd → Bool
  | .playVideoFromStart => true
  | .playAudio _ => true
  | _ => false

/-- The initial values of the `useState` cells (lines 48-70;
`audioAvailable` starts `true`, everything else empty/false/zero). -/
def initViewerState : ViewerState :=
  { activeContent := none
    currentStepIndex := 0
    isTextMode := false
    isGuidanceTextMode := false
    displayedMessages := []
    isAudioPlaying := false
    audioAvailable := true
    audioCheckPerformed := false
    hasRestoredInitialState := false }

/-- Lookup in the association-list representation of
`Record<string, StoredContentData>`. -/
def lookupStored (m : List (String × StoredContentData)) (key : String) :
    Option StoredContentData :=
  (m.find? (fun p => p.1 = key)).map (fun p => p.2)

/-- JS object spread update `{...state, [key]: value}`. -/
def setStored (m : List (String × StoredContentData)) (key : String)
    (v : StoredContentData) : List (String × StoredContentData) :=
  if (m.find? (fun p => p.1 = key)).isSome
  then m.map (fun p => if p.1 = key then (key, v) else p)
  else m ++ [(key, v)]

/-- Embeds `savedContentState?.currentStepIndex || 0` (line 596): the saved step for
a unit, defaulting to 0 (JS `||` maps a saved 0 to 0 as well). -/
def savedStartingStep (m : List (String × StoredContentData)) (cid : String) : Nat :=
  match lookupStored m cid with
  | some d => d.currentStepIndex
  | none => 0

/-- Embeds `handleContentClick` (WorksheetViewer.tsx lines 577-643): the `select`
transition.  Returns the next state and the media commands issued.  The
early return on an empty description leaves everything untouched; otherwise
the saved step is restored, the paragraph prefix through it is displayed,
video restarts and the step audio plays when audio is available, the unit
becomes active and text mode (plus guidance text mode in auto mode) is
entered. -/
def handleContentClick (cfg : Config) (s : ViewerState) (content : ContentUnit)
    (allContentState : List (String × StoredContentData)) :
    ViewerState × List MediaCmd :=
  let description := contentDescription cfg.mode content
  if description.isEmpty then (s, [])
  else
    let startingStepIndex := savedStartingStep allContentState content.cid
    let messagesToDisplay := description.take (startingStepIndex + 1)
    let videoFx := if s.audioAvailable then [MediaCmd.playVideoFromStart] else []
    let audioFx :=
      if s.audioAvailable then
        match audioSegmentName cfg content with
        | some nm => [MediaCmd.playAudio (playAudioSegmentPath cfg.worksheetId nm startingStepIndex)]
        | none => []
      else []
    ({ s with
        currentStepIndex := startingStepIndex
        displayedMessages := messagesToDisplay
        activeContent := some content
        isTextMode := true
        isGuidanceTextMode := if cfg.mode = Mode.auto then true else s.isGuidanceTextMode },
      videoFx ++ audioFx)

/-- Embeds `handleGuidanceClick` (lines 729-736): guards auto-mode selection with
the non-clickability predicate before delegating to `handleContentClick`. -/
def handleGuidanceClick (cfg : Config) (s : ViewerState) (g : GuidanceItem)
    (id : String) (index : Nat) (allContentState : List (String × StoredContentData)) :
    ViewerState × List MediaCmd :=
  if isNonClickableGuidance g then (s, [])
  else handleContentClick cfg s (ContentUnit.guidance g id index) allContentState

/-- Embeds `handleNextStep` (lines 645-683): the `advance` transition.  No-op
without an active unit or at the last step; otherwise pauses audio,
increments the step, appends the next paragraph and plays the step audio
when available. -/
def handleNextStep (cfg : Config) (s : ViewerState) : ViewerState × List MediaCmd :=
  match s.activeContent with
  | none => (s, [])
  | some content =>
      let description := contentDescription cfg.mode content
      if s.currentStepIndex < description.length - 1 then
        let nextStepIndex := s.currentStepIndex + 1
        let audioFx :=
          if s.audioAvailable then
            match audioSegmentName cfg content with
            | some nm => [MediaCmd.playAudio (playAudioSegmentPath cfg.worksheetId nm nextStepIndex)]
            | none => []
          else []
        ({ s with
            currentStepIndex := nextStepIndex
            displayedMessages := s.displayedMessages ++ [description.getD nextStepIndex ""] },
          MediaCmd.pauseAudio :: audioFx)
      else (s, [])

/-- Embeds `handleMessageClick` (lines 407-427): the `seekStep` replay.  Ignored
without an active unit or without audio; otherwise replays the clicked
step's audio without changing any state. -/
def handleMessageClick (cfg : Config) (s : ViewerState) (index : Nat) :
    ViewerState × List MediaCmd :=
  match s.activeContent with
  | none => (s, [])
  | some content =>
      if s.audioAvailable then
        let audioFx :=
          match audioSegmentName cfg content with
          | some nm => [MediaCmd.playAudio (playAudioSegmentPath cfg.worksheetId nm index)]
          | none => []
        (s, MediaCmd.pauseAudio :: audioFx)
      else (s, [])

/-- Embeds `handleBackButtonClick` (lines 685-727): the `exit` transition.  In auto
mode while guidance text mode is on, only collapses back to the guidance
list (keeping the active unit and step); otherwise exits text mode fully and
clears everything. -/
def handleBackButtonClick (cfg : Config) (s : ViewerState) : ViewerState × List MediaCmd :=
  if cfg.mode = Mode.auto ∧ s.isGuidanceTextMode = true then
    ({ s with
        isGuidanceTextMode := false
        displayedMessages := []
        isAudioPlaying := false },
      [MediaCmd.pauseAudio, MediaCmd.rewindAudio, MediaCmd.pauseVideo])
  else
    ({ s with
        isTextMode := false
        isGuidanceTextMode := false
        activeContent := none
        currentStepIndex := 0
        displayedMessages := []
        isAudioPlaying := false },
      [MediaCmd.pauseAudio, MediaCmd.rewindAudio, MediaCmd.pauseVideo])

/-- The previous-identifier refs (lines 73-74). -/
structure NavRefs where
  prevWorksheetId : String
  prevPageIndex : Nat
deriving DecidableEq

/-- The navigation reset effect (lines 230-265): resets the playback state,
stops and rewinds both media elements and updates the refs, but only when
the worksheet id or the page number actually changed. -/
def resetViewerEffect (worksheetId : String) (pageIndex : Nat) (refs : NavRefs)
    (s : ViewerState) : ViewerState × NavRefs × List MediaCmd :=
  if refs.prevWorksheetId ≠ worksheetId ∨ refs.prevPageIndex ≠ pageIndex then
    ({ s with
        activeContent := none
        currentStepIndex := 0
        displayedMessages := []
        isTextMode := false
        isGuidanceTextMode := false
        isAudioPlaying := false
        audioCheckPerformed := false
        hasRestoredInitialState := false },
      ⟨worksheetId, pageIndex⟩,
      [MediaCmd.pauseAudio, MediaCmd.rewindAudio, MediaCmd.pauseVideo, MediaCmd.rewindVideo])
  else (s, refs, [])

/-- The initial-state restoration effect (lines 267-328): applied only when
an initial content handoff is present, the page has content and the
`hasRestoredInitialState` latch is unset.  Restores the matching unit and
the handed-off step, rebuilds the paragraph prefix, starts media when audio
is available, and sets the latch. -/
def restoreInitialState (cfg : Config) (s : ViewerState)
    (initialContentId : Option String) (initialStep : Nat)
    (pageContent : List ContentUnit) : ViewerState × List MediaCmd :=
  match initialContentId with
  | none => (s, [])
  | some icid =>
      if pageContent.length > 0 ∧ s.hasRestoredInitialState = false then
        match pageContent.find? (fun c => c.cid = icid) with
        | none => (s, [])
        | some matching =>
            let description := contentDescription cfg.mode matching
            let base :=
              { s with
                  activeContent := some matching
                  currentStepIndex := initialStep
                  isTextMode := true
                  isGuidanceTextMode :=
                    if cfg.mode = Mode.auto then true else s.isGuidanceTextMode }
            if description.length > 0 then
              let audioFx :=
                match audioSegmentName cfg matching with
                | some nm =>
                    [MediaCmd.playAudio (playAudioSegmentPath cfg.worksheetId nm initialStep)]
                | none => []
              ({ base with
                  displayedMessages := description.take (initialStep + 1)
                  hasRestoredInitialState := true },
                if s.audioAvailable then MediaCmd.playVideoFromStart :: audioFx else [])
            else ({ base with hasRestoredInitialState := true }, [])
      else (s, [])

/-- The video element render guard (lines 922-935): the tutor video node
exists only inside the text display, which itself requires an active unit,
and is additionally gated by `audioAvailable`. -/
def videoRendered (s : ViewerState) : Bool :=
  s.activeContent.isSome && (s.isTextMode || s.isGuidanceTextMode) && s.audioAvailable

/-- The PlaybackState invariant of the spec: with an active unit the
displayed paragraphs are exactly the prefix of its derived paragraphs of
length `stepIndex + 1`; with no active unit the step is 0 and nothing is
displayed. -/
def Invariant (cfg : Config) (s : ViewerState) : Prop :=
  (∀ c, s.activeContent = some c →
      s.displayedMessages = (contentDescription cfg.mode c).take (s.currentStepIndex + 1) ∧
      s.currentStepIndex + 1 ≤ (contentDescription cfg.mode c).length) ∧
  (s.activeContent = none → s.currentStepIndex = 0 ∧ s.displayedMessages = [])

/-! ## AutoModeViewer.tsx -/

/-- The `useState` cells of `AutoModeViewer` (lines 24-27). -/
structure AmvState where
  isTextMode : Bool
  activeGuidance : Option GuidanceItem
  currentParagraphIndex : Nat
  displayedParagraphs : List String
deriving DecidableEq

/-- Initial `AutoModeViewer` state. -/
def amvInitState : AmvState :=
  { isTextMode := false
    activeGuidance := none
    currentParagraphIndex := 0
    displayedParagraphs := [] }

/-- Embeds `isNonClickable` of AutoModeViewer.tsx (lines 62-65): unlike
`isNonClickableGuidance` it also recognises the `<br/>` spelling. -/
def amvIsNonClickable (g : GuidanceItem) : Bool :=
  decide (jsTrim g.description = "" ∨ jsTrim g.description = "<br>" ∨
    jsTrim g.description = "<br/>")

/-- Embeds `splitIntoParagraphs` of AutoModeViewer.tsx (lines 68-73): split on
newlines, trim, and drop blank lines and both placeholder spellings. -/
def splitIntoParagraphs (description : String) : List String :=
  ((jsSplitChar '\n' description).map jsTrim).filter
    (fun p => decide (p ≠ "" ∧ p ≠ "<br>" ∧ p ≠ "<br/>"))

/-- Embeds `handleGuidanceClick` of AutoModeViewer.tsx (lines 75-89). -/
def amvHandleGuidanceClick (s : AmvState) (g : GuidanceItem) : AmvState :=
  if amvIsNonClickable g then s
  else
    let paragraphs := splitIntoParagraphs g.description
    if paragraphs.isEmpty then s
    else
      { isTextMode := true
        activeGuidance := some g
        currentParagraphIndex := 0
        displayedParagraphs := [paragraphs.getD 0 ""] }

/-! ## Media availability probe (WorksheetViewer.tsx lines 330-398,
AutoModeContentDisplay.tsx lines 47-101) -/

/-- Probe-local state: the `checkCompleted` flag closed over by
`completeCheck` together with the two state cells it commits. -/
structure ProbeState where
  checkCompleted : Bool
  audioAvailable : Bool
  audioCheckPerformed : Bool
deriving DecidableEq

/-- Embeds `completeCheck` (lines 355-365): commits an outcome unless one was
already committed. -/
def completeCheck (s : ProbeState) (available : Bool) : ProbeState :=
  if s.checkCompleted then s
  else { checkCompleted := true, audioAvailable := available, audioCheckPerformed := true }

/-- The three signals that can settle the probe: the `canplaythrough`
listener, the `error` listener, and the 3000 ms timeout. -/
inductive ProbeSignal where
  | canplaythrough
  | errored
  | timedOut
deriving DecidableEq

/-- The outcome each signal commits (lines 367-373, 380-382). -/
def probeOutcome : ProbeSignal → Bool
  | .canplaythrough => true
  | .errored => false
  | .timedOut => false

/-- One signal arriving at the probe. -/
def probeStep (s : ProbeState) (e : ProbeSignal) : ProbeState :=
  completeCheck s (probeOutcome e)

/-- Probe state before any signal: not completed, `audioAvailable` still at
its initial `true`, check not performed. -/
def probeInit : ProbeState :=
  { checkCompleted := false, audioAvailable := true, audioCheckPerformed := false }

/-- A whole probe run: the signals in arrival order, folded over the
probe. -/
def runProbe (events : List ProbeSignal) : ProbeState :=
  events.foldl probeStep probeInit

/-- The probe timeout (line 382): 3000 milliseconds. -/
def audioCheckTimeoutMs : Nat := 3000

/-! ## Session persistence (WorksheetPage, src/unnamed/part_002) -/

/-- Embeds `parseInt(lastActiveContentId.split('_')[1])` (line 144 of the
WorksheetPage effect). -/
def parseGuidanceIndexFromId (lid : String) : Option Nat :=
  jsParseInt ((jsSplitChar '_' lid).getD 1 "")

/-- The metadata lookup of the session-load effect (lines 132-150): in
regions mode the region with the stored id, in auto mode the guidance item
at the index parsed from the stored id on the current page's record.
Returns the restored content id when found. -/
def findStoredContent (md : MetaData) (pageN : Nat) (lid : String) : Option String :=
  match md with
  | .regions rs => (rs.find? (fun r => r.id = lid)).map (fun r => r.id)
  | .auto pages =>
      match pages.find? (fun page => page.page_number = pageN) with
      | some pageData =>
          match parseGuidanceIndexFromId lid with
          | some gi =>
              match pageData.guidance[gi]? with
              | some _ => some lid
              | none => none
          | none => none
      | none => none

/-- The session-load effect (part_002 lines 109-181) reduced to the initial
restoration target it computes: a navigation handoff (`location.state`)
takes priority; otherwise the stored `lastActiveContentId` is resolved
against the metadata and paired with its saved step.  An absent or
unparseable stored record behaves like `none`. -/
def loadSessionInitial (storedState : Option SessionPageData)
    (locationState : Option (String × Nat))
    (meta : Option MetaData) (pageN : Nat) : Option (String × Nat) :=
  match storedState with
  | some parsed =>
      match locationState with
      | some handoff => some handoff
      | none =>
          match parsed.lastActiveContentId, meta with
          | some lid, some md =>
              match findStoredContent md pageN lid with
              | some fid => some (fid, savedStartingStep parsed.content lid)
              | none => none
          | _, _ => none
  | none => locationState

/-- Embeds `handleContentStateChange` (part_002 lines 188-287) restricted to its
persistence effect: with an active unit it writes the merged record with
that unit as last active; with none it nulls `lastActiveContentId` (skipping
the write when it is already null) while the stored `content` map is written
from the in-memory `allContentState`. -/
def handleContentStateChange (stored : Option SessionPageData)
    (allContentState : List (String × StoredContentData))
    (contentId : Option String) (stepIndex : Nat) :
    Option SessionPageData × List (String × StoredContentData) :=
  match contentId with
  | some cid =>
      let updated := setStored allContentState cid ⟨stepIndex⟩
      (some ⟨some cid, updated⟩, updated)
  | none =>
      match stored with
      | some recData =>
          if recData.lastActiveContentId.isSome then
            (some ⟨none, allContentState⟩, allContentState)
          else (some recData, allContentState)
      | none => (some ⟨none, allContentState⟩, allContentState)

/-! ## Audio/video synchroniser (WorksheetViewer.tsx lines 499-511,
AutoModeContentDisplay.tsx lines 139-151 - identical logic) -/

/-- Embeds `handleVideoTimeUpdate`: the clamp applied to the video timeline on each
`timeupdate` tick, as a function of whether narration audio is playing.
The three `if` statements run in sequence on the same element, so later
checks observe earlier writes. -/
def handleVideoTimeUpdate (isAudioPlaying : Bool) (t : ℚ) : ℚ :=
  let t1 := if 20 ≤ t then (10 : ℚ) else t
  let t2 := if 99 / 10 ≤ t1 ∧ isAudioPlaying = false then (0 : ℚ) else t1
  if isAudioPlaying = true ∧ t2 < 10 then (10 : ℚ) else t2

/-! ## Concrete sample states used by counterexamples and witnesses -/

/-- A one-paragraph clickable guidance unit (`guidance_0` with description
`hello`). -/
def helloUnit : ContentUnit := ContentUnit.guidance ⟨"T", "hello"⟩ "guidance_0" 0

/-- The state after selecting `helloUnit` in auto mode from the initial
state. -/
def selectedState : ViewerState :=
  (handleGuidanceClick ⟨"w1", 3, Mode.auto⟩ initViewerState ⟨"T", "hello"⟩ "guidance_0" 0 []).1

/-- The state after the first back action (the detail-to-list collapse)
from `selectedState`. -/
def collapsedState : ViewerState :=
  (handleBackButtonClick ⟨"w1", 3, Mode.auto⟩ selectedState).1

/-! # Theorems -/

/-- Helper: `select` is a strict no-op on a unit with empty derived
paragraphs (the early return of `handleContentClick`). -/
theorem handleContentClick_noop (cfg : Config) (s : ViewerState) (c : ContentUnit)
    (m : List (String × StoredContentData)) (h : contentDescription cfg.mode c = []) :
    handleContentClick cfg s c m = (s, []) := by
  unfold handleContentClick
  rw [if_pos (List.isEmpty_iff.mpr h)]

/-- Helper: the fields `select` writes when the derived paragraphs are
nonempty. -/
theorem handleContentClick_fields (cfg : Config) (s : ViewerState) (c : ContentUnit)
    (m : List (String × StoredContentData)) (h : contentDescription cfg.mode c ≠ []) :
    (handleContentClick cfg s c m).1.activeContent = some c ∧
    (handleContentClick cfg s c m).1.currentStepIndex = savedStartingStep m c.cid ∧
    (handleContentClick cfg s c m).1.displayedMessages
      = (contentDescription cfg.mode c).take (savedStartingStep m c.cid + 1) ∧
    (handleContentClick cfg s c m).1.isTextMode = true := by
  unfold handleContentClick
  rw [if_neg (by simpa [List.isEmpty_iff] using h)]
  exact ⟨rfl, rfl, rfl, rfl⟩

/-- Helper: appending the element at position `n` to the prefix of length
`n` yields the prefix of length `n + 1`. -/
theorem take_append_getD (l : List String) (n : Nat) (h : n < l.length) :
    l.take n ++ [l.getD n ""] = l.take (n + 1) := by
  rw [List.getD_eq_getElem l "" h]
  exact List.take_concat_get' l n h

/-- C1, counterexample: in WorksheetViewer's auto mode, playback of step 0
of the guidance item at position 0 on page 2 requests
`/audio/w1/2_0_1.mp3` - the guidance index in the path is 0-indexed - which
differs from the 1-indexed path `/audio/w1/2_1_1.mp3` the claim states. -/
theorem autoAudioPathZeroIndexed_counterexample :
    (handleContentClick { worksheetId := "w1", pageIndex := 2, mode := Mode.auto }
        initViewerState (ContentUnit.guidance ⟨"T", "hello"⟩ "guidance_0" 0) []).2
      = [MediaCmd.playVideoFromStart, MediaCmd.playAudio "/audio/w1/2_0_1.mp3"] ∧
    "/audio/w1/2_0_1.mp3" ≠ specAutoAudioPath "w1" 2 0 0 := by
  exact ⟨by decide, by decide⟩

/-- C1, amended: regions-mode playback paths match the spec's convention
(`_<step+1>` suffix, 1-indexed step), and AutoModeContentDisplay's auto-mode
paths match the spec's auto convention (1-indexed guidance and step); but
WorksheetViewer's auto-mode playback builds
`/audio/<wid>/<page>_<i>_<k+1>.mp3` with the 0-indexed guidance position
`i`. -/
theorem audioPathConvention_amended :
    (∀ wid nm k, playAudioSegmentPath wid nm k = specRegionsAudioPath wid nm k) ∧
    (∀ wid p i k, amdPlayAudioSegmentPath wid p i k = specAutoAudioPath wid p i k) ∧
    (∀ wid p i k, playAudioSegmentPath wid (wvAutoAudioName p i) k
      = "/audio/" ++ wid ++ "/" ++ toString p ++ "_" ++ toString i ++ "_" ++
          toString (k + 1) ++ ".mp3") := by
  refine ⟨fun wid nm k => rfl, fun wid p i k => rfl, fun wid p i k => ?_⟩
  simp only [playAudioSegmentPath, wvAutoAudioName, String.append_assoc]

/-- C6: the probe commits exactly one outcome.  A completed probe ignores
every further signal; a run beginning with any signal ends in the state that
first signal committed; the committed availability is `true` for the
buffered signal and `false` for the error and timeout signals; and the
timeout is 3 time units (3000 ms). -/
theorem audioProbeSingleCommit_claim (e : ProbeSignal) (rest : List ProbeSignal)
    (s : ProbeState) (hdone : s.checkCompleted = true) :
    (∀ e2, probeStep s e2 = s) ∧
    runProbe (e :: rest) = probeStep probeInit e ∧
    (probeStep probeInit e).checkCompleted = true ∧
    (probeStep probeInit e).audioAvailable = probeOutcome e ∧
    (probeStep probeInit e).audioCheckPerformed = true ∧
    audioCheckTimeoutMs = 3 * 1000 := by
  have hstep : ∀ (u : ProbeState), u.checkCompleted = true → ∀ e2, probeStep u e2 = u := by
    intro u hu e2
    simp [probeStep, completeCheck, hu]
  have hfold : ∀ (l : List ProbeSignal) (u : ProbeState), u.checkCompleted = true →
      l.foldl probeStep u = u := by
    intro l
    induction l with
    | nil => intro u _; rfl
    | cons x xs ih =>
        intro u hu
        simp only [List.foldl_cons, hstep u hu x]
        exact ih u hu
  have hfirst : (probeStep probeInit e).checkCompleted = true := by
    simp [probeStep, completeCheck, probeInit]
  refine ⟨hstep s hdone, ?_, hfirst, ?_, ?_, rfl⟩
  · show (e :: rest).foldl probeStep probeInit = probeStep probeInit e
    simp only [List.foldl_cons]
    exact hfold rest _ hfirst
  · simp [probeStep, completeCheck, probeInit]
  · simp [probeStep, completeCheck, probeInit]

/-- C6 witness: a completed probe state absorbs a later signal, and a run
that starts with the error signal commits `available = false` ignoring the
later buffered signal. -/
theorem audioProbeSingleCommit_claim_witness :
    probeStep ⟨true, false, true⟩ ProbeSignal.canplaythrough = ⟨true, false, true⟩ ∧
    runProbe [ProbeSignal.errored, ProbeSignal.canplaythrough]
      = probeStep probeInit ProbeSignal.errored :=
  ⟨(audioProbeSingleCommit_claim ProbeSignal.errored [] ⟨true, false, true⟩ rfl).1
      ProbeSignal.canplaythrough,
   (audioProbeSingleCommit_claim ProbeSignal.errored [ProbeSignal.canplaythrough]
      ⟨true, false, true⟩ rfl).2.1⟩

/-- C8: when the state-change callback fires with no active content, the
persisted record keeps `lastActiveContentId = none` while the per-unit
progress map is unchanged (given the in-memory mirror of the stored map,
which the page maintains). -/
theorem exitPersistence_claim (recData : SessionPageData)
    (allContentState : List (String × StoredContentData)) (stepIndex : Nat)
    (hmirror : recData.content = allContentState) :
    ∃ out,
      (handleContentStateChange (some recData) allContentState none stepIndex).1 = some out ∧
      out.lastActiveContentId = none ∧ out.content = recData.content := by
  unfold handleContentStateChange
  cases h : recData.lastActiveContentId with
  | none =>
      refine ⟨recData, by simp [h], h, rfl⟩
  | some lid =>
      refine ⟨⟨none, allContentState⟩, by simp [h], rfl, hmirror.symm⟩

/-- C8 witness: exiting with a stored record whose last active unit was
`guidance_1` at step 1 nulls the last-active id and keeps the progress
entry. -/
theorem exitPersistence_claim_witness :
    ∃ out,
      (handleContentStateChange (some ⟨some "guidance_1", [("guidance_1", ⟨1⟩)]⟩)
          [("guidance_1", ⟨1⟩)] none 1).1 = some out ∧
      out.lastActiveContentId = none ∧
      out.content = (SessionPageData.mk (some "guidance_1") [("guidance_1", ⟨1⟩)]).content :=
  exitPersistence_claim ⟨some "guidance_1", [("guidance_1", ⟨1⟩)]⟩ [("guidance_1", ⟨1⟩)] 1 rfl

/-- C9: the navigation reset is a strict no-op when neither identifier
changed, and exactly when one changed it clears the active unit, step,
paragraphs, text modes, the audio-check and restoration latches, stops and
rewinds both media elements, and updates the refs. -/
theorem navigationReset_claim (worksheetId : String) (pageIndex : Nat)
    (refs : NavRefs) (s : ViewerState) :
    (refs.prevWorksheetId = worksheetId ∧ refs.prevPageIndex = pageIndex →
      resetViewerEffect worksheetId pageIndex refs s = (s, refs, [])) ∧
    (refs.prevWorksheetId ≠ worksheetId ∨ refs.prevPageIndex ≠ pageIndex →
      (resetViewerEffect worksheetId pageIndex refs s).1.activeContent = none ∧
      (resetViewerEffect worksheetId pageIndex refs s).1.currentStepIndex = 0 ∧
      (resetViewerEffect worksheetId pageIndex refs s).1.displayedMessages = [] ∧
      (resetViewerEffect worksheetId pageIndex refs s).1.isTextMode = false ∧
      (resetViewerEffect worksheetId pageIndex refs s).1.isGuidanceTextMode = false ∧
      (resetViewerEffect worksheetId pageIndex refs s).1.isAudioPlaying = false ∧
      (resetViewerEffect worksheetId pageIndex refs s).1.audioCheckPerformed = false ∧
      (resetViewerEffect worksheetId pageIndex refs s).1.hasRestoredInitialState = false ∧
      (resetViewerEffect worksheetId pageIndex refs s).2.1 = ⟨worksheetId, pageIndex⟩ ∧
      (resetViewerEffect worksheetId pageIndex refs s).2.2 =
        [MediaCmd.pauseAudio, MediaCmd.rewindAudio, MediaCmd.pauseVideo,
          MediaCmd.rewindVideo]) := by
  constructor
  · rintro ⟨h1, h2⟩
    unfold resetViewerEffect
    rw [if_neg]
    push_neg
    exact ⟨h1, h2⟩
  · intro h
    unfold resetViewerEffect
    rw [if_pos h]
    exact ⟨rfl, rfl, rfl, rfl, rfl, rfl, rfl, rfl, rfl, rfl⟩

/-- C9 witness: with unchanged identifiers the whole triple is returned
untouched; with a changed worksheet id the restoration latch is cleared. -/
theorem navigationReset_claim_witness :
    resetViewerEffect "w1" 2 ⟨"w1", 2⟩ initViewerState = (initViewerState, ⟨"w1", 2⟩, []) ∧
    (resetViewerEffect "w2" 2 ⟨"w1", 2⟩ initViewerState).1.hasRestoredInitialState = false :=
  ⟨(navigationReset_claim "w1" 2 ⟨"w1", 2⟩ initViewerState).1 ⟨rfl, rfl⟩,
   ((navigationReset_claim "w2" 2 ⟨"w1", 2⟩ initViewerState).2
      (Or.inl (by decide))).2.2.2.2.2.2.2.1⟩

/-- C10: on each tick, with audio playing a time below 10 or at or above 20
is set to 10 and the result stays in the speak window `[10, 20)`; with audio
not playing a time at or above 9.9 snaps to 0 and the result stays in the
rest window `[0, 10)`. -/
theorem videoSyncWindows_claim (b : Bool) (t : ℚ) (ht : 0 ≤ t) :
    (b = true → t < 10 → handleVideoTimeUpdate b t = 10) ∧
    (b = true → 20 ≤ t → handleVideoTimeUpdate b t = 10) ∧
    (b = false → 99 / 10 ≤ t → handleVideoTimeUpdate b t = 0) ∧
    (b = true → 10 ≤ handleVideoTimeUpdate b t ∧ handleVideoTimeUpdate b t < 20) ∧
    (b = false → 0 ≤ handleVideoTimeUpdate b t ∧ handleVideoTimeUpdate b t < 10) := by
  refine ⟨?_, ?_, ?_, ?_, ?_⟩
  · rintro rfl h10
    simp only [handleVideoTimeUpdate]
    split_ifs <;> simp_all
  · rintro rfl h20
    simp only [handleVideoTimeUpdate]
    split_ifs <;> simp_all
  · rintro rfl h99
    simp only [handleVideoTimeUpdate]
    split_ifs <;> simp_all <;> linarith
  · rintro rfl
    simp only [handleVideoTimeUpdate]
    split_ifs <;> simp_all <;> first | (constructor <;> linarith) | linarith
  · rintro rfl
    simp only [handleVideoTimeUpdate]
    split_ifs <;> simp_all <;> first | (constructor <;> linarith) | linarith

/-- C10 witness: with audio playing at time 5 the tick moves the video into
the speak window at 10. -/
theorem videoSyncWindows_claim_witness :
    (0 : ℚ) ≤ 5 ∧ handleVideoTimeUpdate true 5 = 10 :=
  ⟨by norm_num, (videoSyncWindows_claim true 5 (by norm_num)).1 rfl (by norm_num)⟩

/-- C2, counterexample: the guidance description `<br/>` derives the
paragraph sequence `["<br/>"]`, which consists solely of line-break
placeholder markers (so the claim calls the unit inert), yet selecting it in
WorksheetViewer's auto mode activates it; AutoModeViewer, by contrast, does
treat the same item as inert - so the predicate is neither the claimed
function of the derived sequence nor computed identically. -/
theorem nonClickablePlaceholder_counterexample :
    processGuidanceDescription "<br/>" = ["<br/>"] ∧
    specNonClickable (processGuidanceDescription "<br/>") = true ∧
    (handleGuidanceClick ⟨"w1", 3, Mode.auto⟩ initViewerState ⟨"T", "<br/>"⟩ "guidance_0" 0
        []).1.activeContent
      = some (ContentUnit.guidance ⟨"T", "<br/>"⟩ "guidance_0" 0) ∧
    amvHandleGuidanceClick amvInitState ⟨"T", "<br/>"⟩ = amvInitState := by
  exact ⟨by decide, by decide, by decide, by decide⟩

/-- C2, amended: from the idle state, a unit is inert exactly when its
derived paragraph sequence is empty - the same emptiness criterion in both
WorksheetViewer modes (placeholder-only sequences such as `["<br/>"]` are
clickable); AutoModeViewer's criterion is instead its own predicate (which
also recognises `<br/>`) or the emptiness of its placeholder-stripping
split. -/
theorem nonClickable_amended (wid : String) (p : Nat) (r : RegionData)
    (g : GuidanceItem) (id : String) (index : Nat)
    (m : List (String × StoredContentData)) :
    (handleContentClick ⟨wid, p, Mode.regions⟩ initViewerState (ContentUnit.region r) m
        = (initViewerState, []) ↔ r.description = []) ∧
    (handleGuidanceClick ⟨wid, p, Mode.auto⟩ initViewerState g id index m
        = (initViewerState, []) ↔ processGuidanceDescription g.description = []) ∧
    (amvHandleGuidanceClick amvInitState g = amvInitState ↔
      (amvIsNonClickable g = true ∨ splitIntoParagraphs g.description = [])) := by
  refine ⟨⟨?_, ?_⟩, ⟨?_, ?_⟩, ⟨?_, ?_⟩⟩
  · intro h
    by_contra hne
    have h1 := (handleContentClick_fields ⟨wid, p, Mode.regions⟩ initViewerState
      (ContentUnit.region r) m (by simpa [contentDescription] using hne)).1
    rw [h] at h1
    simp [initViewerState] at h1
  · intro h
    exact handleContentClick_noop _ _ _ _ (by simpa [contentDescription] using h)
  · intro h
    by_cases hnc : isNonClickableGuidance g = true
    · have hcond := of_decide_eq_true hnc
      simp [processGuidanceDescription, hcond]
    · by_contra hne
      have hgc : handleGuidanceClick ⟨wid, p, Mode.auto⟩ initViewerState g id index m
          = handleContentClick ⟨wid, p, Mode.auto⟩ initViewerState
              (ContentUnit.guidance g id index) m := by
        unfold handleGuidanceClick
        rw [if_neg hnc]
      have h1 := (handleContentClick_fields ⟨wid, p, Mode.auto⟩ initViewerState
        (ContentUnit.guidance g id index) m (by simpa [contentDescription] using hne)).1
      rw [← hgc, h] at h1
      simp [initViewerState] at h1
  · intro h
    by_cases hnc : isNonClickableGuidance g = true
    · unfold handleGuidanceClick
      rw [if_pos hnc]
    · unfold handleGuidanceClick
      rw [if_neg hnc]
      exact handleContentClick_noop _ _ _ _ (by simpa [contentDescription] using h)
  · intro h
    by_cases hnc : amvIsNonClickable g = true
    · exact Or.inl hnc
    · by_cases hp : splitIntoParagraphs g.description = []
      · exact Or.inr hp
      · exfalso
        have hres : amvHandleGuidanceClick amvInitState g
            = { isTextMode := true
                activeGuidance := some g
                currentParagraphIndex := 0
                displayedParagraphs := [(splitIntoParagraphs g.description).getD 0 ""] } := by
          unfold amvHandleGuidanceClick
          rw [if_neg hnc, if_neg (by simpa [List.isEmpty_iff] using hp)]
        rw [hres] at h
        have := congrArg AmvState.isTextMode h
        simp [amvInitState] at this
  · intro h
    rcases h with hnc | hp
    · unfold amvHandleGuidanceClick
      rw [if_pos hnc]
    · by_cases hnc : amvIsNonClickable g = true
      · unfold amvHandleGuidanceClick
        rw [if_pos hnc]
      · unfold amvHandleGuidanceClick
        rw [if_neg hnc, if_pos (List.isEmpty_iff.mpr hp)]

/-- C2 witness: a guidance item whose description trims to the `<br>`
marker derives no paragraphs and is inert in auto mode. -/
theorem nonClickable_amended_witness :
    handleGuidanceClick ⟨"w1", 3, Mode.auto⟩ initViewerState ⟨"B", "<br>"⟩ "guidance_1" 1 []
      = (initViewerState, []) :=
  (nonClickable_amended "w1" 3 ⟨"r1", 3, "nm", []⟩ ⟨"B", "<br>"⟩ "guidance_1" 1 []).2.1.mpr
    (by decide)

/-- C4: a navigation handoff determines the restoration target whatever the
stored record says; without one the stored last-active unit (resolved in the
metadata) is used together with its saved step; a set restoration latch
makes the restoration effect a strict no-op (so a metadata reload - even an
equal-valued copy, since the effect is a pure function of the values - does
not re-trigger it); and a successful restoration restores the matched unit
at the handed-off step and sets the latch. -/
theorem restorationOnce_claim (parsed : SessionPageData) (md : MetaData)
    (pageN : Nat) (lid : String)
    (hlast : parsed.lastActiveContentId = some lid)
    (hfound : findStoredContent md pageN lid = some lid) :
    (∀ storedState handoff meta pn,
        loadSessionInitial storedState (some handoff) meta pn = some handoff) ∧
    loadSessionInitial (some parsed) none (some md) pageN
      = some (lid, savedStartingStep parsed.content lid) ∧
    (∀ cfg s initId k pc, s.hasRestoredInitialState = true →
        restoreInitialState cfg s initId k pc = (s, [])) ∧
    (∀ cfg (s : ViewerState) icid k pc c, s.hasRestoredInitialState = false →
        pc.find? (fun u => u.cid = icid) = some c →
        (restoreInitialState cfg s (some icid) k pc).1.activeContent = some c ∧
        (restoreInitialState cfg s (some icid) k pc).1.currentStepIndex = k ∧
        (restoreInitialState cfg s (some icid) k pc).1.hasRestoredInitialState = true) := by
  refine ⟨?_, ?_, ?_, ?_⟩
  · intro storedState handoff meta pn
    cases storedState <;> rfl
  · simp only [loadSessionInitial, hlast, hfound]
  · intro cfg s initId k pc hdone
    cases initId with
    | none => rfl
    | some icid =>
        have hcond : ¬(pc.length > 0 ∧ s.hasRestoredInitialState = false) := by
          simp [hdone]
        simp only [restoreInitialState]
        rw [if_neg hcond]
  · intro cfg s icid k pc c hlatch hfind
    have hne : pc ≠ [] := by
      intro hnil
      rw [hnil] at hfind
      simp at hfind
    have hlen : pc.length > 0 := List.length_pos.mpr hne
    have hcond : pc.length > 0 ∧ s.hasRestoredInitialState = false := ⟨hlen, hlatch⟩
    simp only [restoreInitialState]
    rw [if_pos hcond]
    simp only [hfind]
    split_ifs <;> exact ⟨rfl, rfl, rfl⟩

/-- C4 witness: on page 3 with two guidance items and a stored record whose
last active unit is `guidance_1` at step 2, the session fallback restores
`guidance_1` at step 2, while an explicit handoff of `guidance_0` at step 5
overrides that same record; the restoration effect on a latched state is a
no-op and a successful restoration restores the handed-off unit and step
with the latch set. -/
theorem restorationOnce_claim_witness :
    loadSessionInitial (some ⟨some "guidance_1", [("guidance_1", ⟨2⟩)]⟩)
        (some ("guidance_0", 5))
        (some (MetaData.auto [⟨3, "d", [⟨"A", "a"⟩, ⟨"B", "b"⟩]⟩])) 3
      = some ("guidance_0", 5) ∧
    loadSessionInitial (some ⟨some "guidance_1", [("guidance_1", ⟨2⟩)]⟩) none
        (some (MetaData.auto [⟨3, "d", [⟨"A", "a"⟩, ⟨"B", "b"⟩]⟩])) 3
      = some ("guidance_1", 2) ∧
    restoreInitialState ⟨"w1", 3, Mode.auto⟩
        { initViewerState with hasRestoredInitialState := true } (some "guidance_0") 0
        [ContentUnit.guidance ⟨"A", "a"⟩ "guidance_0" 0]
      = ({ initViewerState with hasRestoredInitialState := true }, []) ∧
    (restoreInitialState ⟨"w1", 3, Mode.auto⟩ initViewerState (some "guidance_0") 0
        [ContentUnit.guidance ⟨"A", "a"⟩ "guidance_0" 0]).1.activeContent
      = some (ContentUnit.guidance ⟨"A", "a"⟩ "guidance_0" 0) := by
  have h := restorationOnce_claim ⟨some "guidance_1", [("guidance_1", ⟨2⟩)]⟩
    (MetaData.auto [⟨3, "d", [⟨"A", "a"⟩, ⟨"B", "b"⟩]⟩]) 3 "guidance_1" rfl (by decide)
  refine ⟨h.1 _ _ _ _, h.2.1, h.2.2.1 _ _ _ _ _ rfl, ?_⟩
  exact (h.2.2.2 ⟨"w1", 3, Mode.auto⟩ initViewerState "guidance_0" 0
    [ContentUnit.guidance ⟨"A", "a"⟩ "guidance_0" 0]
    (ContentUnit.guidance ⟨"A", "a"⟩ "guidance_0" 0) rfl (by decide)).1

/-- C3, counterexample: the invariant holds after selecting the
one-paragraph unit `helloUnit`, but the auto-mode detail-to-list collapse
(the first back action) clears the displayed paragraphs while keeping the
unit active at step 0, so afterwards `displayedParagraphs` is `[]` instead
of the prefix of length 1 - the claimed invariant is not preserved by that
transition. -/
theorem collapseInvariant_counterexample :
    Invariant ⟨"w1", 3, Mode.auto⟩ selectedState ∧
    collapsedState.activeContent = some helloUnit ∧
    collapsedState.displayedMessages = [] ∧
    ¬ Invariant ⟨"w1", 3, Mode.auto⟩ collapsedState := by
  have hsel : selectedState.activeContent = some helloUnit := by decide
  refine ⟨⟨?_, ?_⟩, by decide, by decide, ?_⟩
  · intro c hc
    rw [hsel] at hc
    injection hc with hc2
    subst hc2
    exact ⟨by decide, by decide⟩
  · intro hn
    rw [hsel] at hn
    exact Option.noConfusion hn
  · intro hI
    have hcoll : collapsedState.activeContent = some helloUnit := by decide
    have hbad := (hI.1 helloUnit hcoll).1
    have hmsg : collapsedState.displayedMessages = [] := by decide
    have hstep : collapsedState.currentStepIndex = 0 := by decide
    rw [hmsg, hstep] at hbad
    exact absurd hbad (by decide)

/-- C3, amended: the prefix invariant holds in every state reached by
`select` (when any session-saved step for the unit is within its paragraph
range), `advance`, the full exit, the navigation reset, and restoration
(when the handed-off step is within the matched unit's range); the
auto-mode detail-to-list collapse is the exception and violates it whenever
a unit is active. -/
theorem playbackInvariant_amended (cfg : Config) (s : ViewerState)
    (hInv : Invariant cfg s) :
    (∀ c m, (∀ d, lookupStored m c.cid = some d →
        d.currentStepIndex + 1 ≤ (contentDescription cfg.mode c).length) →
      Invariant cfg (handleContentClick cfg s c m).1) ∧
    Invariant cfg (handleNextStep cfg s).1 ∧
    (¬(cfg.mode = Mode.auto ∧ s.isGuidanceTextMode = true) →
      Invariant cfg (handleBackButtonClick cfg s).1) ∧
    (∀ wid p refs, Invariant cfg (resetViewerEffect wid p refs s).1) ∧
    (∀ icid k pc,
        (∀ c, pc.find? (fun u => u.cid = icid) = some c →
          k + 1 ≤ (contentDescription cfg.mode c).length) →
      Invariant cfg (restoreInitialState cfg s (some icid) k pc).1) := by
  refine ⟨?_, ?_, ?_, ?_, ?_⟩
  · -- select
    intro c m hm
    by_cases hd : contentDescription cfg.mode c = []
    · rw [handleContentClick_noop cfg s c m hd]
      exact hInv
    · obtain ⟨hact, hstep, hmsg, -⟩ := handleContentClick_fields cfg s c m hd
      constructor
      · intro c2 hc2
        rw [hact] at hc2
        injection hc2 with hc2
        subst hc2
        refine ⟨by rw [hmsg, hstep], ?_⟩
        rw [hstep]
        cases hl : lookupStored m c.cid with
        | some d =>
            have hd2 := hm d hl
            simp only [savedStartingStep, hl]
            exact hd2
        | none =>
            have hpos : 0 < (contentDescription cfg.mode c).length := List.length_pos.mpr hd
            simp only [savedStartingStep, hl]
            omega
      · intro hn
        rw [hact] at hn
        exact Option.noConfusion hn
  · -- advance
    cases hac : s.activeContent with
    | none =>
        have hstep : handleNextStep cfg s = (s, []) := by
          simp only [handleNextStep, hac]
        rw [hstep]
        exact hInv
    | some c =>
        have hmsg := (hInv.1 c hac).1
        have hlen := (hInv.1 c hac).2
        by_cases hlt : s.currentStepIndex < (contentDescription cfg.mode c).length - 1
        · have hres : (handleNextStep cfg s).1
              = { s with
                    currentStepIndex := s.currentStepIndex + 1
                    displayedMessages := s.displayedMessages ++
                      [(contentDescription cfg.mode c).getD (s.currentStepIndex + 1) ""] } := by
            simp only [handleNextStep, hac]
            rw [if_pos hlt]
          rw [hres]
          have hbound : s.currentStepIndex + 1 < (contentDescription cfg.mode c).length := by
            omega
          constructor
          · intro c2 hc2
            simp only at hc2
            rw [hac] at hc2
            injection hc2 with hc2
            subst hc2
            refine ⟨?_, by simpa using hbound⟩
            simp only
            rw [hmsg, take_append_getD _ _ hbound]
          · intro hn
            simp only at hn
            rw [hac] at hn
            exact Option.noConfusion hn
        · have hres : handleNextStep cfg s = (s, []) := by
            simp only [handleNextStep, hac]
            rw [if_neg hlt]
          rw [hres]
          exact hInv
  · -- full exit
    intro hnc
    unfold handleBackButtonClick
    rw [if_neg hnc]
    exact ⟨fun c2 hc2 => Option.noConfusion hc2, fun _ => ⟨rfl, rfl⟩⟩
  · -- navigation reset
    intro wid p refs
    unfold resetViewerEffect
    split_ifs
    · exact ⟨fun c2 hc2 => Option.noConfusion hc2, fun _ => ⟨rfl, rfl⟩⟩
    · exact hInv
  · -- restoration
    intro icid k pc hk
    simp only [restoreInitialState]
    by_cases hcond : pc.length > 0 ∧ s.hasRestoredInitialState = false
    · rw [if_pos hcond]
      cases hfind : pc.find? (fun u => u.cid = icid) with
      | none => simp only [hfind]; exact hInv
      | some matching =>
          have hlen := hk matching hfind
          simp only [hfind]
          rw [if_pos (show (contentDescription cfg.mode matching).length > 0 by omega)]
          constructor
          · intro c2 hc2
            simp only at hc2
            injection hc2 with hc2
            subst hc2
            exact ⟨rfl, hlen⟩
          · intro hn
            simp only at hn
            exact Option.noConfusion hn
    · rw [if_neg hcond]
      exact hInv

/-- C3 witness: from the (invariant-satisfying) initial state, selecting
`helloUnit` with an empty session map preserves the invariant. -/
theorem playbackInvariant_amended_witness :
    Invariant ⟨"w1", 3, Mode.auto⟩
      (handleContentClick ⟨"w1", 3, Mode.auto⟩ initViewerState helloUnit []).1 :=
  (playbackInvariant_amended ⟨"w1", 3, Mode.auto⟩ initViewerState
      ⟨fun _ hc => Option.noConfusion hc, fun _ => ⟨rfl, rfl⟩⟩).1
    helloUnit [] (fun d hd => by simp [lookupStored] at hd)

/-- C5: `select` is a strict no-op on a unit whose derived paragraph
sequence is empty, and (in auto mode) on a non-clickable guidance item;
otherwise it activates the unit, starts from the session-saved step (0 when
none is saved), displays the paragraph prefix through that step, and enters
text mode. -/
theorem selectTransition_claim (cfg : Config) (s : ViewerState) (c : ContentUnit)
    (m : List (String × StoredContentData)) (g : GuidanceItem) (id : String) (index : Nat)
    (hne : contentDescription cfg.mode c ≠ []) :
    (∀ cu, contentDescription cfg.mode cu = [] → handleContentClick cfg s cu m = (s, [])) ∧
    (isNonClickableGuidance g = true → handleGuidanceClick cfg s g id index m = (s, [])) ∧
    (handleContentClick cfg s c m).1.activeContent = some c ∧
    (handleContentClick cfg s c m).1.currentStepIndex = savedStartingStep m c.cid ∧
    (handleContentClick cfg s c m).1.displayedMessages
      = (contentDescription cfg.mode c).take (savedStartingStep m c.cid + 1) ∧
    (handleContentClick cfg s c m).1.isTextMode = true := by
  refine ⟨?_, ?_, ?_⟩
  · intro cu hcu
    unfold handleContentClick
    rw [if_pos (List.isEmpty_iff.mpr hcu)]
  · intro hnc
    unfold handleGuidanceClick
    rw [if_pos hnc]
  · unfold handleContentClick
    rw [if_neg (by simpa [List.isEmpty_iff] using hne)]
    exact ⟨rfl, rfl, rfl, rfl⟩

/-- C5 witness: selecting a guidance item with two paragraphs and saved step
1 restores step 1 with both paragraphs displayed, while an empty item and a
non-clickable item are no-ops. -/
theorem selectTransition_claim_witness :
    (handleContentClick ⟨"w1", 3, Mode.auto⟩ initViewerState
        (ContentUnit.guidance ⟨"A", "p\nq"⟩ "guidance_0" 0)
        [("guidance_0", ⟨1⟩)]).1.displayedMessages = ["p", "q"] ∧
    handleGuidanceClick ⟨"w1", 3, Mode.auto⟩ initViewerState ⟨"B", "<br>"⟩ "guidance_1" 1
        [("guidance_0", ⟨1⟩)] = (initViewerState, []) := by
  have h := selectTransition_claim ⟨"w1", 3, Mode.auto⟩ initViewerState
    (ContentUnit.guidance ⟨"A", "p\nq"⟩ "guidance_0" 0)
    [("guidance_0", ⟨1⟩)] ⟨"B", "<br>"⟩ "guidance_1" 1 (by decide)
  refine ⟨?_, h.2.1 (by decide)⟩
  have h2 := h.2.2.2.2.1
  rw [h2]
  decide

/-- C7: with the probe committed to unavailable, the video is not rendered
(neither before nor after a select or advance), no select, advance or
paragraph-replay emits a media-start command, replay changes no state, and
the text progression of select and advance (active unit, step, paragraphs)
is identical to what it would be with audio available. -/
theorem probeGating_claim (cfg : Config) (s : ViewerState) (c : ContentUnit)
    (m : List (String × StoredContentData)) (i : Nat)
    (hoff : s.audioAvailable = false) :
    videoRendered s = false ∧
    videoRendered (handleContentClick cfg s c m).1 = false ∧
    videoRendered (handleNextStep cfg s).1 = false ∧
    (handleContentClick cfg s c m).2.all (fun e => !e.isStart) = true ∧
    (handleNextStep cfg s).2.all (fun e => !e.isStart) = true ∧
    (handleMessageClick cfg s i).2.all (fun e => !e.isStart) = true ∧
    (handleMessageClick cfg s i).1 = s ∧
    (handleContentClick cfg s c m).1.activeContent
      = (handleContentClick cfg { s with audioAvailable := true } c m).1.activeContent ∧
    (handleContentClick cfg s c m).1.currentStepIndex
      = (handleContentClick cfg { s with audioAvailable := true } c m).1.currentStepIndex ∧
    (handleContentClick cfg s c m).1.displayedMessages
      = (handleContentClick cfg { s with audioAvailable := true } c m).1.displayedMessages ∧
    (handleNextStep cfg s).1.currentStepIndex
      = (handleNextStep cfg { s with audioAvailable := true }).1.currentStepIndex ∧
    (handleNextStep cfg s).1.displayedMessages
      = (handleNextStep cfg { s with audioAvailable := true }).1.displayedMessages := by
  refine ⟨?_, ?_, ?_, ?_, ?_, ?_, ?_, ?_, ?_, ?_, ?_, ?_⟩ <;>
    simp only [videoRendered, handleContentClick, handleNextStep, handleMessageClick, hoff] <;>
    cases hac : s.activeContent <;>
    simp [hoff, hac, MediaCmd.isStart] <;>
    (try split_ifs) <;>
    first
      | rfl
      | exact hac
      | decide
      | simp [hoff, MediaCmd.isStart]

/-- C7 witness: with audio unavailable, selecting a two-paragraph guidance
item still advances the text (no video rendered, no media-start commands),
matching the with-audio progression. -/
theorem probeGating_claim_witness :
    videoRendered { initViewerState with audioAvailable := false } = false ∧
    (handleContentClick ⟨"w1", 3, Mode.auto⟩ { initViewerState with audioAvailable := false }
        (ContentUnit.guidance ⟨"A", "p\nq"⟩ "guidance_0" 0) []).2.all
      (fun e => !e.isStart) = true := by
  have h := probeGating_claim ⟨"w1", 3, Mode.auto⟩
    { initViewerState with audioAvailable := false }
    (ContentUnit.guidance ⟨"A", "p\nq"⟩ "guidance_0" 0) [] 0 rfl
  exact ⟨h.1, h.2.2.2.1⟩

end Jooy
